import Mathlib

/-!
# Verification of the flashcard spaced-repetition core

Shallow embedding of the scheduling core of the flashcard application:
the SM-2 scheduler (`lib/spacedRepetition.ts`, shown in full in the
repository documentation), the `POST /api/reviews` handler with its
four-write transaction, the study-streak update, and the due-card query.

Numeric conventions: JavaScript numbers are modelled as exact rationals
(`ℚ`); database integer columns as `ℤ`; dates at day granularity as `ℤ`
day numbers (epoch = day 0).  `Math.round` is `⌊x + 1/2⌋` (round half
toward +∞, exactly JavaScript's behaviour) and `Math.ceil (a / 60)` is
`⌈a / 60⌉`.
-/

set_option autoImplicit false

/-- JavaScript `Math.round`: rounds half toward `+∞`. -/
def jsRound (x : ℚ) : ℤ := ⌊x + 1/2⌋

/-- `Math.ceil (a / 60)` on an integer number of seconds, as in
`studyTimeMinutes: Math.ceil((responseTimeSeconds || 0) / 60)`. -/
def jsCeilDiv60 (a : ℤ) : ℤ := ⌈(a : ℚ) / 60⌉

/-- JavaScript `Math.max` on two numbers (kernel-reducible, unlike the
lattice `max`). -/
def jsMax (a b : ℚ) : ℚ := if a ≤ b then b else a

/-- JavaScript `Math.min` on two numbers. -/
def jsMin (a b : ℚ) : ℚ := if a ≤ b then a else b

/-- The ease-factor increment of `calculateSM2`:
`0.1 - (5 - quality) * (0.08 + (5 - quality) * 0.02)`. -/
def sm2Delta (quality : ℚ) : ℚ :=
  1/10 - (5 - quality) * (8/100 + (5 - quality) * (2/100))

/-- Return type of `calculateSM2` (the `nextReviewDate` member, which the
source computes as now + `interval` days, is reconstructed by the review
handler from its `today` parameter). -/
structure SM2Result where
  easeFactor : ℚ
  interval : ℤ
  repetitions : ℤ
deriving DecidableEq

/-- `calculateSM2` from `lib/spacedRepetition.ts`:
`newEF = easeFactor + delta`, then `newEF = Math.max(1.3, Math.min(2.5, newEF))`;
`quality < 3` resets repetitions to 0 and the interval to 1; otherwise
repetitions increment and the interval is 1, 6, or
`Math.round(interval * newEF)`. -/
def calculateSM2 (quality : ℚ) (repetitions : ℤ) (easeFactor : ℚ)
    (interval : ℤ) : SM2Result :=
  let newEF := jsMax (13/10) (jsMin (5/2) (easeFactor + sm2Delta quality))
  if quality < 3 then
    { easeFactor := newEF, interval := 1, repetitions := 0 }
  else
    let newRepetitions := repetitions + 1
    if newRepetitions = 1 then
      { easeFactor := newEF, interval := 1, repetitions := newRepetitions }
    else if newRepetitions = 2 then
      { easeFactor := newEF, interval := 6, repetitions := newRepetitions }
    else
      { easeFactor := newEF, interval := jsRound ((interval : ℚ) * newEF),
        repetitions := newRepetitions }

/-- Modelled from the spec: the ease-factor update as §4.1 step 1 words it,
`newEase = prior.easeFactor + delta` "then clamp to a floor of 1.3 (no
ceiling enforced)".  Kept separate from `calculateSM2` so the two can be
compared. -/
def specNewEase (easeFactor quality : ℚ) : ℚ :=
  jsMax (13/10) (easeFactor + sm2Delta quality)

/-- C1 counterexample: at prior ease 2.6 and quality 4 the code clamps the
new ease factor down to 2.5 (`Math.min(2.5, ·)` is a ceiling), while the
claim's floor-only formula gives 2.6 and the claim itself predicts ≈ 2.7. -/
theorem calculateSM2_ease_ceiling_cex :
    (calculateSM2 4 1 (26/10) 1).easeFactor = 5/2 ∧
    specNewEase (26/10) 4 = 26/10 ∧
    ((5 : ℚ)/2 ≠ 26/10) ∧ ((5 : ℚ)/2 ≠ 27/10) := by
  refine ⟨?_, ?_, by norm_num, by norm_num⟩
  · norm_num [calculateSM2, sm2Delta, jsMax, jsMin]
  · norm_num [specNewEase, sm2Delta, jsMax]

/-- C1 amended: for every prior state and quality in [0,5] the new ease
factor is `prior.easeFactor + delta` clamped into the closed interval
[1.3, 2.5] (floor 1.3 and ceiling 2.5). -/
theorem calculateSM2_ease_clamped (quality : ℚ) (repetitions : ℤ)
    (easeFactor : ℚ) (interval : ℤ)
    (h0 : 0 ≤ quality) (h5 : quality ≤ 5) :
    (calculateSM2 quality repetitions easeFactor interval).easeFactor =
      jsMax (13/10) (jsMin (5/2) (easeFactor + sm2Delta quality)) := by
  unfold calculateSM2
  dsimp only
  split
  · rfl
  · split
    · rfl
    · split <;> rfl

/-- Witness for C1's amended theorem at quality 4, prior ease 2.6. -/
theorem calculateSM2_ease_clamped_witness :
    (0 : ℚ) ≤ 4 ∧ (4 : ℚ) ≤ 5 ∧
    (calculateSM2 4 1 (26/10) 1).easeFactor =
      jsMax (13/10) (jsMin (5/2) ((26/10) + sm2Delta 4)) :=
  ⟨by norm_num, by norm_num,
    calculateSM2_ease_clamped 4 1 (26/10) 1 (by norm_num) (by norm_num)⟩

/-- `newEF` is at least its floor argument 1.3. -/
theorem le_jsMax_left (a b : ℚ) : a ≤ jsMax a b := by
  unfold jsMax
  split
  · assumption
  · exact le_refl a

/-- C2 counterexample: at prior ease 3.0 and quality 2 the code returns
ease 2.5 (ceiling applied), not the 2.68 produced by the claim's
floor-only "step 1" formula; repetitions and interval do reset. -/
theorem calculateSM2_incorrect_ease_cex :
    (calculateSM2 2 5 3 16).repetitions = 0 ∧
    (calculateSM2 2 5 3 16).interval = 1 ∧
    (calculateSM2 2 5 3 16).easeFactor = 5/2 ∧
    specNewEase 3 2 = 67/25 ∧ ((5 : ℚ)/2 ≠ 67/25) := by
  norm_num [calculateSM2, specNewEase, sm2Delta, jsMax, jsMin]

/-- C2 amended: for every prior state and quality < 3 the scheduler
returns repetitions 0, interval 1, and the ease factor updated by the
delta formula clamped into [1.3, 2.5]. -/
theorem calculateSM2_incorrect_resets (quality : ℚ) (repetitions : ℤ)
    (easeFactor : ℚ) (interval : ℤ) (hq : quality < 3) :
    (calculateSM2 quality repetitions easeFactor interval).repetitions = 0 ∧
    (calculateSM2 quality repetitions easeFactor interval).interval = 1 ∧
    (calculateSM2 quality repetitions easeFactor interval).easeFactor =
      jsMax (13/10) (jsMin (5/2) (easeFactor + sm2Delta quality)) := by
  unfold calculateSM2
  rw [if_pos hq]
  exact ⟨rfl, rfl, rfl⟩

/-- Witness for C2's amended theorem at quality 2, prior
(ease 2.8, interval 16, repetitions 3) — the spec's scenario 3. -/
theorem calculateSM2_incorrect_resets_witness :
    (2 : ℚ) < 3 ∧
    (calculateSM2 2 3 (28/10) 16).repetitions = 0 ∧
    (calculateSM2 2 3 (28/10) 16).interval = 1 ∧
    (calculateSM2 2 3 (28/10) 16).easeFactor =
      jsMax (13/10) (jsMin (5/2) ((28/10) + sm2Delta 2)) :=
  ⟨by norm_num, calculateSM2_incorrect_resets 2 3 (28/10) 16 (by norm_num)⟩

/-- C3 counterexample: the code has no `≥ 1` coercion after
`Math.round(interval * newEF)`: at quality 4, repetitions 2 and
intervalDays 0 the new interval is 0, not ≥ 1 as the claim states. -/
theorem calculateSM2_no_interval_floor_cex :
    (calculateSM2 4 2 (5/2) 0).repetitions = 3 ∧
    (calculateSM2 4 2 (5/2) 0).interval = 0 := by
  constructor
  · norm_num [calculateSM2, sm2Delta, jsMax, jsMin]
  · norm_num [calculateSM2, sm2Delta, jsRound]

/-- C3 amended: for quality ≥ 3 the scheduler increments repetitions and
sets the interval to 1, 6, or `round(intervalDays * newEase)` (round half
up) with NO coercion to ≥ 1: the result is ≥ 1 whenever the prior
interval is ≥ 1 (since newEase ≥ 1.3), but a pathological
`intervalDays = 0` yields interval 0. -/
theorem calculateSM2_correct_branch (quality : ℚ) (repetitions : ℤ)
    (easeFactor : ℚ) (interval : ℤ) (hq : 3 ≤ quality) :
    (calculateSM2 quality repetitions easeFactor interval).repetitions =
      repetitions + 1 ∧
    (repetitions + 1 = 1 →
      (calculateSM2 quality repetitions easeFactor interval).interval = 1) ∧
    (repetitions + 1 = 2 →
      (calculateSM2 quality repetitions easeFactor interval).interval = 6) ∧
    (repetitions + 1 ≠ 1 → repetitions + 1 ≠ 2 →
      (calculateSM2 quality repetitions easeFactor interval).interval =
        jsRound ((interval : ℚ) *
          (calculateSM2 quality repetitions easeFactor interval).easeFactor)) ∧
    (1 ≤ interval →
      1 ≤ (calculateSM2 quality repetitions easeFactor interval).interval) := by
  have hnot : ¬ quality < 3 := not_lt.mpr hq
  unfold calculateSM2
  rw [if_neg hnot]
  by_cases h1 : repetitions + 1 = 1
  · rw [if_pos h1]
    refine ⟨rfl, fun _ => rfl, fun h2 => absurd (h1.symm.trans h2) (by norm_num),
      fun hc _ => absurd h1 hc, fun _ => le_refl 1⟩
  · rw [if_neg h1]
    by_cases h2 : repetitions + 1 = 2
    · rw [if_pos h2]
      refine ⟨rfl, fun hc => absurd hc h1, fun _ => rfl,
        fun _ hc => absurd h2 hc, fun _ => by norm_num⟩
    · rw [if_neg h2]
      refine ⟨rfl, fun hc => absurd hc h1, fun hc => absurd hc h2,
        fun _ _ => rfl, fun hi => ?_⟩
      have hEF : (13/10 : ℚ) ≤
          jsMax (13/10) (jsMin (5/2) (easeFactor + sm2Delta quality)) :=
        le_jsMax_left _ _
      have hi' : (1 : ℚ) ≤ (interval : ℚ) := by exact_mod_cast hi
      have hprod : (13/10 : ℚ) ≤ (interval : ℚ) *
          jsMax (13/10) (jsMin (5/2) (easeFactor + sm2Delta quality)) := by
        calc (13/10 : ℚ) = 1 * (13/10) := by ring
        _ ≤ (interval : ℚ) *
            jsMax (13/10) (jsMin (5/2) (easeFactor + sm2Delta quality)) :=
          mul_le_mul hi' hEF (by norm_num) (by linarith)
      show (1 : ℤ) ≤ jsRound _
      unfold jsRound
      rw [Int.le_floor]
      push_cast
      linarith

/-- Witness for C3's amended theorem at quality 4,
prior (ease 2.5, interval 3, repetitions 2). -/
theorem calculateSM2_correct_branch_witness :
    (3 : ℚ) ≤ 4 ∧
    ((calculateSM2 4 2 (5/2) 3).repetitions = 2 + 1 ∧
     ((2 : ℤ) + 1 = 1 → (calculateSM2 4 2 (5/2) 3).interval = 1) ∧
     ((2 : ℤ) + 1 = 2 → (calculateSM2 4 2 (5/2) 3).interval = 6) ∧
     ((2 : ℤ) + 1 ≠ 1 → (2 : ℤ) + 1 ≠ 2 →
       (calculateSM2 4 2 (5/2) 3).interval =
         jsRound ((3 : ℚ) * (calculateSM2 4 2 (5/2) 3).easeFactor)) ∧
     (1 ≤ (3 : ℤ) → 1 ≤ (calculateSM2 4 2 (5/2) 3).interval)) :=
  ⟨by norm_num, calculateSM2_correct_branch 4 2 (5/2) 3 (by norm_num)⟩

/-- `ReviewSchedule` row (table `ReviewSchedule` in the Prisma schema),
dates as day numbers. -/
structure ReviewSchedule where
  flashcardId : ℤ
  userId : ℤ
  easeFactor : ℚ
  interval : ℤ
  repetitions : ℤ
  nextReviewDate : ℤ
  lastReviewedAt : Option ℤ
deriving DecidableEq

/-- `ReviewHistory` row as created by the handler. -/
structure ReviewHistoryEntry where
  flashcardId : ℤ
  userId : ℤ
  quality : ℚ
  wasCorrect : Bool
  responseTimeSeconds : Option ℤ
  easeFactorBefore : ℚ
  easeFactorAfter : ℚ
  intervalBefore : ℤ
  intervalAfter : ℤ
deriving DecidableEq

/-- `DailyStat` row; `cardsLearned` has schema default 0
(`"cardsLearned" INTEGER NOT NULL DEFAULT 0` in the init migration). -/
structure DailyStat where
  userId : ℤ
  date : ℤ
  cardsReviewed : ℤ
  cardsLearned : ℤ
  correctAnswers : ℤ
  totalAnswers : ℤ
  studyTimeMinutes : ℤ
deriving DecidableEq

/-- `StudyStreak` row, one per user. -/
structure StudyStreak where
  userId : ℤ
  currentStreak : ℤ
  longestStreak : ℤ
  lastStudyDate : Option ℤ
deriving DecidableEq

/-- A flashcard (only the columns the due-card query touches). -/
structure Flashcard where
  id : ℤ
  userId : ℤ
deriving DecidableEq

/-- The persistent state the review code reads and writes, each table as
a list of rows in storage order. -/
structure DB where
  flashcards : List Flashcard
  schedules : List ReviewSchedule
  history : List ReviewHistoryEntry
  dailyStats : List DailyStat
  streaks : List StudyStreak
deriving DecidableEq

/-- The study-streak update of the review handler: create
`{currentStreak: 1, longestStreak: 1, lastStudyDate: today}` when no row
exists; otherwise compare `lastStudyDate || 0` (day-truncated) against
yesterday: equal increments, earlier resets to 1, anything else (already
studied today, or a future date) keeps the streak; `longestStreak`
becomes `Math.max(longestStreak, newCurrentStreak)` and `lastStudyDate`
becomes today. -/
def streakStep (streak : Option StudyStreak) (uid today : ℤ) : StudyStreak :=
  match streak with
  | none => { userId := uid, currentStreak := 1, longestStreak := 1,
              lastStudyDate := some today }
  | some st =>
      let lastStudy := st.lastStudyDate.getD 0
      let newCurrentStreak :=
        if lastStudy = today - 1 then st.currentStreak + 1
        else if lastStudy < today - 1 then 1
        else st.currentStreak
      { userId := uid, currentStreak := newCurrentStreak,
        longestStreak := max st.longestStreak newCurrentStreak,
        lastStudyDate := some today }

/-- Write 1 of the transaction: `tx.reviewSchedule.update` keyed on
`flashcardId`, storing the `calculateSM2` result plus
`nextReviewDate = today + newInterval` and `lastReviewedAt = today`. -/
def updateScheduleWrite (db : DB) (fid today : ℤ) (res : SM2Result) : DB :=
  { db with schedules := db.schedules.map (fun s =>
      if s.flashcardId == fid then
        { s with
            easeFactor := res.easeFactor
            interval := res.interval
            repetitions := res.repetitions
            nextReviewDate := today + res.interval
            lastReviewedAt := some today }
      else s) }

/-- Write 2 of the transaction: `tx.reviewHistory.create`. -/
def appendHistoryWrite (db : DB) (uid fid : ℤ) (quality : ℚ)
    (rts : Option ℤ) (sc : ReviewSchedule) (res : SM2Result) : DB :=
  { db with history := db.history ++
      [{ flashcardId := fid, userId := uid, quality := quality,
         wasCorrect := decide (3 ≤ quality), responseTimeSeconds := rts,
         easeFactorBefore := sc.easeFactor, easeFactorAfter := res.easeFactor,
         intervalBefore := sc.interval, intervalAfter := res.interval }] }

/-- Write 3 of the transaction: `tx.dailyStat.upsert` on `(userId, date)`.
The `create` data omits `cardsLearned`, so the schema default 0 applies;
the `update` data increments `cardsReviewed`, `correctAnswers`,
`totalAnswers` and `studyTimeMinutes` only. -/
def upsertDailyStat (stats : List DailyStat) (uid today : ℤ) (quality : ℚ)
    (rts : Option ℤ) : List DailyStat :=
  let correct : ℤ := if 3 ≤ quality then 1 else 0
  let minutes : ℤ := jsCeilDiv60 (rts.getD 0)
  match stats.find? (fun s => s.userId == uid && s.date == today) with
  | some _ => stats.map (fun s =>
      if s.userId == uid && s.date == today then
        { s with
            cardsReviewed := s.cardsReviewed + 1
            correctAnswers := s.correctAnswers + correct
            totalAnswers := s.totalAnswers + 1
            studyTimeMinutes := s.studyTimeMinutes + minutes }
      else s)
  | none => stats ++
      [{ userId := uid, date := today, cardsReviewed := 1, cardsLearned := 0,
         correctAnswers := correct, totalAnswers := 1,
         studyTimeMinutes := minutes }]

/-- Write 3 lifted to the whole database. -/
def upsertDailyStatWrite (db : DB) (uid today : ℤ) (quality : ℚ)
    (rts : Option ℤ) : DB :=
  { db with dailyStats := upsertDailyStat db.dailyStats uid today quality rts }

/-- Write 4 of the transaction: `tx.studyStreak.findUnique` then create
or update via `streakStep`. -/
def upsertStreakWrite (db : DB) (uid today : ℤ) : DB :=
  { db with streaks :=
      match db.streaks.find? (fun s => s.userId == uid) with
      | none => db.streaks ++ [streakStep none uid today]
      | some _ => db.streaks.map (fun s =>
          if s.userId == uid then streakStep (some s) uid today else s) }

/-- The four sub-writes of the `prisma.$transaction` block. -/
inductive WriteStep
  | sched
  | hist
  | stat
  | streak
deriving DecidableEq

/-- Error taxonomy of the handler's HTTP responses: 400, 404, 500. -/
inductive ApiError
  | invalidInput
  | notFound
  | serverError
deriving DecidableEq

/-- All four writes applied in the handler's order. -/
def applyReviewWrites (db : DB) (uid fid : ℤ) (quality : ℚ) (rts : Option ℤ)
    (today : ℤ) (sc : ReviewSchedule) : DB :=
  let res := calculateSM2 quality sc.repetitions sc.easeFactor sc.interval
  upsertStreakWrite
    (upsertDailyStatWrite
      (appendHistoryWrite (updateScheduleWrite db fid today res)
        uid fid quality rts sc res)
      uid today quality rts)
    uid today

/-- The `prisma.$transaction` block of the handler, with an oracle
`fail` saying which sub-write (if any) the storage layer fails on.
A failing sub-write aborts the block; Prisma then rolls the whole
transaction back, which the runner models by discarding the block's
writes and keeping the pre-transaction database.  A storage failure is
surfaced by the handler's catch-all as a 500 (`serverError`). -/
def reviewTransaction (fail : WriteStep → Bool) (db : DB) (uid fid : ℤ)
    (quality : ℚ) (rts : Option ℤ) (today : ℤ) (sc : ReviewSchedule) :
    Except ApiError DB :=
  let res := calculateSM2 quality sc.repetitions sc.easeFactor sc.interval
  if fail .sched then .error .serverError else
  let db1 := updateScheduleWrite db fid today res
  if fail .hist then .error .serverError else
  let db2 := appendHistoryWrite db1 uid fid quality rts sc res
  if fail .stat then .error .serverError else
  let db3 := upsertDailyStatWrite db2 uid today quality rts
  if fail .streak then .error .serverError else
  .ok (upsertStreakWrite db3 uid today)

/-- The database visible after the handler returns: on success the
transaction's result, on any error the pre-transaction database
(rollback / nothing written yet). -/
def dbAfter (db : DB) : Except ApiError DB → DB
  | .ok db2 => db2
  | .error _ => db

/-- The oracle for a run in which the storage layer fails nothing. -/
def noFail : WriteStep → Bool := fun _ => false

/-- `POST /api/reviews`: validate `quality < 0 || quality > 5` (400),
look the schedule up by `flashcardId` alone (404 when absent — note: no
ownership check against the submitting user), then run the transaction. -/
def submitReview (fail : WriteStep → Bool) (db : DB) (uid fid : ℤ)
    (quality : ℚ) (rts : Option ℤ) (today : ℤ) : Except ApiError DB :=
  if quality < 0 ∨ 5 < quality then .error .invalidInput
  else
    match db.schedules.find? (fun s => s.flashcardId == fid) with
    | none => .error .notFound
    | some sc => reviewTransaction fail db uid fid quality rts today sc

/-- The `nextReviewDate` of a card's schedule row (0 when the card has
no schedule; such cards never pass the due filter). -/
def dueKey (db : DB) (c : Flashcard) : ℤ :=
  match db.schedules.find? (fun s => s.flashcardId == c.id) with
  | some s => s.nextReviewDate
  | none => 0

/-- The due filter of the query: the card's related schedule exists and
`nextReviewDate ≤ asOf` (`nextReviewDate: { lte: ... }`). -/
def isDue (db : DB) (asOf : ℤ) (c : Flashcard) : Bool :=
  match db.schedules.find? (fun s => s.flashcardId == c.id) with
  | some s => decide (s.nextReviewDate ≤ asOf)
  | none => false

/-- The due-card query: `prisma.flashcard.findMany` filtered on
`userId` and the schedule's `nextReviewDate ≤ asOf`, ordered by
`nextReviewDate` ascending and by nothing else — rows with equal keys
keep their storage order (a stable sort over the table's row order). -/
def dueCards (db : DB) (uid asOf : ℤ) : List Flashcard :=
  List.insertionSort (fun a b => dueKey db a ≤ dueKey db b)
    (db.flashcards.filter (fun c => c.userId == uid && isDue db asOf c))

/-- C8 (confirmed): the streak update is idempotent within a day: feeding
its own output (which has `lastStudyDate = today`) back in with the same
`today` changes neither `currentStreak` nor `longestStreak`. -/
theorem streakStep_idempotent (streak : Option StudyStreak) (uid today : ℤ) :
    (streakStep (some (streakStep streak uid today)) uid today).currentStreak =
      (streakStep streak uid today).currentStreak ∧
    (streakStep (some (streakStep streak uid today)) uid today).longestStreak =
      (streakStep streak uid today).longestStreak := by
  have h1 : ¬ (today = today - 1) := by omega
  have h2 : ¬ (today < today - 1) := by omega
  cases streak with
  | none =>
      simp only [streakStep, Option.getD_some]
      rw [if_neg h1, if_neg h2]
      exact ⟨rfl, by simp⟩
  | some st =>
      simp only [streakStep, Option.getD_some]
      rw [if_neg h1, if_neg h2]
      refine ⟨rfl, ?_⟩
      rw [max_assoc, max_self]

/-- C4 (confirmed): the four writes of the review transaction are atomic.
For every database and every choice of which sub-write the storage layer
fails on, either nothing fails and the result is all four writes applied
in order, or some sub-write fails, the transaction surfaces a generic
server error, and the database after rollback is exactly the
pre-transaction database. -/
theorem review_transaction_atomic (fail : WriteStep → Bool) (db : DB)
    (uid fid : ℤ) (quality : ℚ) (rts : Option ℤ) (today : ℤ)
    (sc : ReviewSchedule) :
    (reviewTransaction fail db uid fid quality rts today sc =
        .ok (applyReviewWrites db uid fid quality rts today sc) ∧
      fail .sched = false ∧ fail .hist = false ∧
      fail .stat = false ∧ fail .streak = false) ∨
    (reviewTransaction fail db uid fid quality rts today sc =
        .error .serverError ∧
      dbAfter db (reviewTransaction fail db uid fid quality rts today sc) =
        db ∧
      (fail .sched = true ∨ fail .hist = true ∨
       fail .stat = true ∨ fail .streak = true)) := by
  unfold reviewTransaction applyReviewWrites
  split_ifs with hs hh ht hk
  · exact Or.inr ⟨rfl, rfl, Or.inl hs⟩
  · exact Or.inr ⟨rfl, rfl, Or.inr (Or.inl hh)⟩
  · exact Or.inr ⟨rfl, rfl, Or.inr (Or.inr (Or.inl ht))⟩
  · exact Or.inr ⟨rfl, rfl, Or.inr (Or.inr (Or.inr hk))⟩
  · refine Or.inl ⟨rfl, ?_, ?_, ?_, ?_⟩ <;>
      simp only [Bool.not_eq_true] at hs hh ht hk <;> assumption

/-- The transaction block only ever surfaces a generic server error. -/
theorem reviewTransaction_error_eq (fail : WriteStep → Bool) (db : DB)
    (uid fid : ℤ) (quality : ℚ) (rts : Option ℤ) (today : ℤ)
    (sc : ReviewSchedule) (e : ApiError)
    (h : reviewTransaction fail db uid fid quality rts today sc =
      .error e) : e = .serverError := by
  unfold reviewTransaction at h
  split_ifs at h <;>
    first
      | (injection h with h2; exact h2.symm)
      | cases h

/-- C5 amended: for a valid quality, the review submission fails with
`NotFound` exactly when no schedule row with the given `flashcardId`
exists, and on that failure nothing is written.  The lookup is by
`flashcardId` alone; ownership by the submitting user is not checked. -/
theorem submitReview_notFound_iff (fail : WriteStep → Bool) (db : DB)
    (uid fid : ℤ) (quality : ℚ) (rts : Option ℤ) (today : ℤ)
    (h0 : 0 ≤ quality) (h5 : quality ≤ 5) :
    (submitReview fail db uid fid quality rts today = .error .notFound ↔
      db.schedules.find? (fun s => s.flashcardId == fid) = none) ∧
    (db.schedules.find? (fun s => s.flashcardId == fid) = none →
      dbAfter db (submitReview fail db uid fid quality rts today) = db) := by
  have hcond : ¬ (quality < 0 ∨ 5 < quality) := by
    push_neg
    exact ⟨h0, h5⟩
  unfold submitReview
  rw [if_neg hcond]
  cases hfind : db.schedules.find? (fun s => s.flashcardId == fid) with
  | none => exact ⟨⟨fun _ => rfl, fun _ => rfl⟩, fun _ => rfl⟩
  | some sc =>
      refine ⟨⟨fun h => ?_, fun h => ?_⟩, fun h => ?_⟩
      · exact absurd
          (reviewTransaction_error_eq fail db uid fid quality rts today sc _ h)
          (by simp)
      · exact absurd h (by simp)
      · exact absurd h (by simp)

/-- Witness for C5's amended theorem: on a database with no schedule
rows, a valid review fails with `NotFound` and writes nothing. -/
theorem submitReview_notFound_iff_witness :
    (0 : ℚ) ≤ 4 ∧ (4 : ℚ) ≤ 5 ∧
    ((submitReview noFail
        { flashcards := [], schedules := [], history := [],
          dailyStats := [], streaks := [] } 1 1 4 none 0 =
        .error .notFound ↔
      (({ flashcards := [], schedules := [], history := [],
          dailyStats := [], streaks := [] } : DB)).schedules.find?
        (fun s => s.flashcardId == 1) = none) ∧
     ((({ flashcards := [], schedules := [], history := [],
          dailyStats := [], streaks := [] } : DB)).schedules.find?
        (fun s => s.flashcardId == 1) = none →
      dbAfter
        { flashcards := [], schedules := [], history := [],
          dailyStats := [], streaks := [] }
        (submitReview noFail
          { flashcards := [], schedules := [], history := [],
            dailyStats := [], streaks := [] } 1 1 4 none 0) =
        { flashcards := [], schedules := [], history := [],
          dailyStats := [], streaks := [] })) :=
  ⟨by norm_num, by norm_num,
    submitReview_notFound_iff noFail _ 1 1 4 none 0 (by norm_num) (by norm_num)⟩

/-- A database in which card 1 and its schedule belong to user 2. -/
def cexOwnershipDB : DB :=
  { flashcards := [{ id := 1, userId := 2 }]
    schedules := [{ flashcardId := 1, userId := 2, easeFactor := 5/2,
                    interval := 1, repetitions := 0, nextReviewDate := 0,
                    lastReviewedAt := none }]
    history := []
    dailyStats := []
    streaks := [] }

/-- C5 counterexample: user 1 submits a review against card 1, which is
owned by user 2.  The handler does not reject it with `NotFound`: the
schedule lookup is by `flashcardId` alone, the transaction runs, and
user 2's schedule row gets `lastReviewedAt` set — another user's card is
reviewed successfully. -/
theorem submitReview_cross_user_cex :
    ((cexOwnershipDB.schedules.find? (fun s => s.flashcardId == 1)).map
      (fun s => s.userId) = some 2) ∧
    submitReview noFail cexOwnershipDB 1 1 4 none 100 ≠
      .error .notFound ∧
    (dbAfter cexOwnershipDB
        (submitReview noFail cexOwnershipDB 1 1 4 none 100)).schedules.map
      (fun s => s.lastReviewedAt) = [some 100] ∧
    cexOwnershipDB.schedules.map (fun s => s.lastReviewedAt) = [none] := by
  refine ⟨by norm_num [cexOwnershipDB], ?_, ?_, by norm_num [cexOwnershipDB]⟩
  · intro h
    have hred : submitReview noFail cexOwnershipDB 1 1 4 none 100 =
        reviewTransaction noFail cexOwnershipDB 1 1 4 none 100
          { flashcardId := 1, userId := 2, easeFactor := 5/2,
            interval := 1, repetitions := 0, nextReviewDate := 0,
            lastReviewedAt := none } := by
      norm_num [submitReview, cexOwnershipDB]
    rw [hred] at h
    exact absurd
      (reviewTransaction_error_eq noFail cexOwnershipDB 1 1 4 none 100 _ _ h)
      (by simp)
  · norm_num [cexOwnershipDB, submitReview, reviewTransaction, noFail,
      upsertStreakWrite, upsertDailyStatWrite, upsertDailyStat,
      appendHistoryWrite, updateScheduleWrite, dbAfter]

/-- C6 (confirmed): a quality outside the closed range [0,5] is rejected
with `InvalidInput` and the database is unchanged; a quality inside the
range is never rejected for that reason (the check is
`quality < 0 || quality > 5` and runs before any write). -/
theorem submitReview_quality_validation (fail : WriteStep → Bool) (db : DB)
    (uid fid : ℤ) (quality : ℚ) (rts : Option ℤ) (today : ℤ) :
    ((quality < 0 ∨ 5 < quality) →
      submitReview fail db uid fid quality rts today =
        .error .invalidInput ∧
      dbAfter db (submitReview fail db uid fid quality rts today) = db) ∧
    (0 ≤ quality → quality ≤ 5 →
      submitReview fail db uid fid quality rts today ≠
        .error .invalidInput) := by
  constructor
  · intro h
    unfold submitReview
    rw [if_pos h]
    exact ⟨rfl, rfl⟩
  · intro h0 h5
    have hcond : ¬ (quality < 0 ∨ 5 < quality) := by
      push_neg
      exact ⟨h0, h5⟩
    unfold submitReview
    rw [if_neg hcond]
    cases hfind : db.schedules.find? (fun s => s.flashcardId == fid) with
    | none =>
        intro h
        injection h with h2
        exact ApiError.noConfusion h2
    | some sc =>
        intro h
        exact ApiError.noConfusion
          (reviewTransaction_error_eq fail db uid fid quality rts today sc _ h)

/-- Witness for C6 at quality 6 (rejected, database untouched) and
quality 4 (not rejected as invalid input). -/
theorem submitReview_quality_validation_witness :
    ((6 : ℚ) < 0 ∨ 5 < (6 : ℚ)) ∧
    (submitReview noFail cexOwnershipDB 1 1 6 none 100 =
        .error .invalidInput ∧
      dbAfter cexOwnershipDB (submitReview noFail cexOwnershipDB 1 1 6 none 100) =
        cexOwnershipDB) ∧
    (0 : ℚ) ≤ 4 ∧ (4 : ℚ) ≤ 5 ∧
    submitReview noFail cexOwnershipDB 1 1 4 none 100 ≠
      .error .invalidInput :=
  ⟨Or.inr (by norm_num),
    (submitReview_quality_validation noFail cexOwnershipDB 1 1 6 none 100).1
      (Or.inr (by norm_num)),
    by norm_num, by norm_num,
    (submitReview_quality_validation noFail cexOwnershipDB 1 1 4 none 100).2
      (by norm_num) (by norm_num)⟩

/-- A database in which user 1 owns card 1 with a fresh schedule. -/
def fracQualityDB : DB :=
  { flashcards := [{ id := 1, userId := 1 }]
    schedules := [{ flashcardId := 1, userId := 1, easeFactor := 5/2,
                    interval := 1, repetitions := 0, nextReviewDate := 0,
                    lastReviewedAt := none }]
    history := []
    dailyStats := []
    streaks := [] }

/-- C9 (confirmed): the fractional quality 2.5 passes the
`quality < 0 || quality > 5` validation, reaches `calculateSM2`, and the
recorded history row carries `wasCorrect = (2.5 ≥ 3) = false` and the
fractional new ease factor 2.5 + delta(2.5) = 2.5 − 0.225 = 2.275. -/
theorem submitReview_fractional_quality :
    submitReview noFail fracQualityDB 1 1 (5/2) (some 30) 0 ≠
      .error .invalidInput ∧
    (dbAfter fracQualityDB
        (submitReview noFail fracQualityDB 1 1 (5/2) (some 30) 0)).history.map
      (fun h => (h.quality, h.wasCorrect, h.easeFactorAfter)) =
      [((5/2 : ℚ), false, (91/40 : ℚ))] ∧
    sm2Delta (5/2) = -9/40 ∧ ((91/40 : ℚ) = 5/2 + sm2Delta (5/2)) := by
  refine ⟨?_, ?_, by norm_num [sm2Delta], by norm_num [sm2Delta]⟩
  · intro h
    have hred : submitReview noFail fracQualityDB 1 1 (5/2) (some 30) 0 =
        reviewTransaction noFail fracQualityDB 1 1 (5/2) (some 30) 0
          { flashcardId := 1, userId := 1, easeFactor := 5/2,
            interval := 1, repetitions := 0, nextReviewDate := 0,
            lastReviewedAt := none } := by
      norm_num [submitReview, fracQualityDB]
    rw [hred] at h
    exact ApiError.noConfusion
      (reviewTransaction_error_eq noFail fracQualityDB 1 1 (5/2) (some 30) 0
        _ _ h)
  · norm_num [fracQualityDB, submitReview, reviewTransaction, noFail,
      upsertStreakWrite, upsertDailyStatWrite, upsertDailyStat,
      appendHistoryWrite, updateScheduleWrite, dbAfter, calculateSM2,
      sm2Delta, jsMax, jsMin]

/-- C10 (confirmed): no path of the review submission changes any
existing `cardsLearned` value: the per-row multiset of `cardsLearned` is
either exactly preserved (rejections, rollbacks, and the upsert's update
branch, which increments only the four other counters) or extended by a
single new row whose `cardsLearned` is the schema default 0 (the
upsert's create branch omits the column). -/
theorem submitReview_cardsLearned_frame (fail : WriteStep → Bool) (db : DB)
    (uid fid : ℤ) (quality : ℚ) (rts : Option ℤ) (today : ℤ) :
    (dbAfter db (submitReview fail db uid fid quality rts today)).dailyStats.map
        (fun s => s.cardsLearned) =
      db.dailyStats.map (fun s => s.cardsLearned) ∨
    (dbAfter db (submitReview fail db uid fid quality rts today)).dailyStats.map
        (fun s => s.cardsLearned) =
      db.dailyStats.map (fun s => s.cardsLearned) ++ [0] := by
  unfold submitReview
  split_ifs with hq
  · exact Or.inl rfl
  · cases hfind : db.schedules.find? (fun s => s.flashcardId == fid) with
    | none => exact Or.inl rfl
    | some sc =>
        unfold reviewTransaction
        split_ifs with h1 h2 h3 h4
        · exact Or.inl rfl
        · exact Or.inl rfl
        · exact Or.inl rfl
        · exact Or.inl rfl
        · simp only [dbAfter, upsertStreakWrite, upsertDailyStatWrite,
            appendHistoryWrite, updateScheduleWrite]
          unfold upsertDailyStat
          cases hfind2 : db.dailyStats.find?
              (fun s => s.userId == uid && s.date == today) with
          | some st =>
              left
              rw [List.map_map]
              have hcomp : ((fun s => s.cardsLearned) ∘
                  (fun s : DailyStat =>
                    if s.userId == uid && s.date == today then
                      { s with
                          cardsReviewed := s.cardsReviewed + 1
                          correctAnswers := s.correctAnswers +
                            (if 3 ≤ quality then 1 else 0)
                          totalAnswers := s.totalAnswers + 1
                          studyTimeMinutes := s.studyTimeMinutes +
                            jsCeilDiv60 (rts.getD 0) }
                    else s)) = fun s : DailyStat => s.cardsLearned := by
                funext s
                dsimp only [Function.comp]
                split <;> rfl
              rw [hcomp]
          | none =>
              right
              rw [List.map_append]
              rfl

/-- Schedules for cards 1 and 2 of user 1, both due on day 0 (a tie). -/
def cexOrderSchedules : List ReviewSchedule :=
  [{ flashcardId := 1, userId := 1, easeFactor := 5/2, interval := 1,
     repetitions := 0, nextReviewDate := 0, lastReviewedAt := none },
   { flashcardId := 2, userId := 1, easeFactor := 5/2, interval := 1,
     repetitions := 0, nextReviewDate := 0, lastReviewedAt := none }]

/-- Storage order card 1 before card 2. -/
def cexOrderDB1 : DB :=
  { flashcards := [{ id := 1, userId := 1 }, { id := 2, userId := 1 }]
    schedules := cexOrderSchedules
    history := []
    dailyStats := []
    streaks := [] }

/-- The same rows with storage order card 2 before card 1. -/
def cexOrderDB2 : DB :=
  { flashcards := [{ id := 2, userId := 1 }, { id := 1, userId := 1 }]
    schedules := cexOrderSchedules
    history := []
    dailyStats := []
    streaks := [] }

/-- C7 counterexample: the query orders by `nextReviewDate` only, so two
cards with equal due dates come back in storage order: the same row set
yields [1, 2] under one storage order and [2, 1] under the other.  No
card-identifier tie-break is applied and the output order on ties is not
determined by the data, contradicting the claimed determinism. -/
theorem dueCards_tie_order_cex :
    (dueCards cexOrderDB1 1 0).map (fun c => c.id) = [1, 2] ∧
    (dueCards cexOrderDB2 1 0).map (fun c => c.id) = [2, 1] ∧
    dueKey cexOrderDB1 { id := 1, userId := 1 } =
      dueKey cexOrderDB1 { id := 2, userId := 1 } ∧
    cexOrderDB1.flashcards.Perm cexOrderDB2.flashcards ∧
    cexOrderDB1.schedules = cexOrderDB2.schedules := by
  refine ⟨?_, ?_, ?_, ?_, rfl⟩
  · decide
  · decide
  · decide
  · exact List.Perm.swap _ _ _

/-- C7 amended: the query returns exactly the cards owned by `userId`
whose schedule is due (`nextReviewDate ≤ asOf`), sorted by
`nextReviewDate` ascending; it is a pure read.  Ties keep storage order
rather than being broken by card identifier. -/
theorem dueCards_spec (db : DB) (uid asOf : ℤ) :
    List.Sorted (fun a b => dueKey db a ≤ dueKey db b)
      (dueCards db uid asOf) ∧
    ∀ c, c ∈ dueCards db uid asOf ↔
      (c ∈ db.flashcards ∧ c.userId = uid ∧ isDue db asOf c = true) := by
  constructor
  · haveI h1 : IsTotal Flashcard (fun a b => dueKey db a ≤ dueKey db b) :=
      ⟨fun a b => le_total _ _⟩
    haveI h2 : IsTrans Flashcard (fun a b => dueKey db a ≤ dueKey db b) :=
      ⟨fun a b c hab hbc => le_trans hab hbc⟩
    exact List.sorted_insertionSort _ _
  · intro c
    unfold dueCards
    rw [(List.perm_insertionSort _ _).mem_iff, List.mem_filter]
    simp [Bool.and_eq_true, beq_iff_eq, and_assoc]
